import Mathlib

/-!
# Verification of the stay-filtering / calendar-export core of `al-registos`

This file gives a shallow embedding, in Lean 4, of the stay-filtering,
grouping and calendar/document generation engine found in
`src/routes/Stays.tsx`, together with theorems settling the frozen claims
about that code.

## Modelling conventions

* A JavaScript `Date` produced by this code always sits at local midnight
  (`parseDateSafe` truncates, `new Date(y, m, d)` constructs midnight
  dates, `setDate`/`setMonth` preserve midnight).  We therefore model a
  date as its **epoch day number**: an `Int` counting days since
  0000-01-01 of the proleptic Gregorian calendar.  `Date` comparison
  (`<`, `>`) is comparison of day numbers; `getTime()` is an affine,
  strictly monotone function of the day number (modelled exactly below).
* `new Date(y, m, d)` with arbitrary integer month / day arguments
  normalizes them (month overflow moves into neighbouring years, day
  overflow into neighbouring months); this is `mkDate` below, defined via
  a month index `12*y + m`.  (The host's remapping of constructor years
  0–99 to 1900–1999 is outside the modelled range: every year handled by
  this application is ≥ 2000 by form/filter validation.)
* The stay record's `check_in` / `check_out` columns are stored strings;
  the code only ever consumes them through `parseDateSafe`, which yields
  a midnight date or `null` (absent, blank or unparseable).  The
  embedding therefore carries the parse results directly:
  `check_in check_out : Option Int` where `none` means
  `parseDateSafe` returned `null` and `some d` means it returned the
  date with day number `d`.
* JavaScript `Map`s keyed by ISO day strings (`toIsoDayKey`) are
  modelled as association lists keyed by the day number itself;
  `toIsoDayKey` is injective on midnight dates, so the keying is the
  same.  Insertion order of keys and of per-key pushes is preserved.
* `Array.prototype.sort` with the consistent comparators used here is
  modelled by `List.mergeSort` with the corresponding boolean `le`.
* While-loops over dates/months are written with an explicit iteration
  count (`Nat` fuel) chosen ≥ the number of iterations the source loop
  performs, so every definition is structurally recursive and
  executable; lemmas establish that the fuel never runs out.
-/

/-! ## Calendar arithmetic (the host's proleptic Gregorian calendar) -/

/-- Gregorian leap-year predicate (as the host calendar implements it). -/
def isLeap (y : Int) : Prop := (y % 4 = 0 ∧ y % 100 ≠ 0) ∨ y % 400 = 0

instance (y : Int) : Decidable (isLeap y) := by unfold isLeap; infer_instance

/-- Day number of Jan 1 of year `y` (days since 0000-01-01).
`(y+3)/4 - (y+99)/100 + (y+399)/400` counts the leap years in `[0, y)`. -/
def yearStartDay (y : Int) : Int := 365*y + (y+3)/4 - (y+99)/100 + (y+399)/400

/-- Days before month `m` (0-based) in a non-leap year. -/
def cumDaysBefore (m : Int) : Int :=
  if m ≤ 0 then 0 else if m = 1 then 31 else if m = 2 then 59 else if m = 3 then 90
  else if m = 4 then 120 else if m = 5 then 151 else if m = 6 then 181 else if m = 7 then 212
  else if m = 8 then 243 else if m = 9 then 273 else if m = 10 then 304 else 334

/-- Day number of the first day of month index `mi` (where month index
`12*y + m` denotes month `m` (0-based) of year `y`). -/
def firstDayOfMonthIndex (mi : Int) : Int :=
  yearStartDay (mi/12) + cumDaysBefore (mi%12) + (if 2 ≤ mi%12 ∧ isLeap (mi/12) then 1 else 0)

theorem yearStartDay_step (y : Int) :
    yearStartDay (y+1) = yearStartDay y + 365 + (if isLeap y then 1 else 0) := by
  unfold yearStartDay isLeap
  split_ifs with h <;> omega

theorem fd_norm (y m : Int) (h0 : 0 ≤ m) (h1 : m < 12) :
    firstDayOfMonthIndex (12*y + m) =
      yearStartDay y + cumDaysBefore m + (if 2 ≤ m ∧ isLeap y then 1 else 0) := by
  unfold firstDayOfMonthIndex
  rw [show (12*y+m)/12 = y by omega, show (12*y+m)%12 = m by omega]

/-- Consecutive month starts are between 28 and 31 days apart. -/
theorem firstDay_step (mi : Int) :
    firstDayOfMonthIndex mi + 28 ≤ firstDayOfMonthIndex (mi+1) ∧
    firstDayOfMonthIndex (mi+1) ≤ firstDayOfMonthIndex mi + 31 := by
  obtain ⟨y, m, h0, h1, rfl⟩ : ∃ y m, 0 ≤ m ∧ m < 12 ∧ mi = 12*y + m :=
    ⟨mi/12, mi%12, by omega, by omega, by omega⟩
  by_cases hcase : m = 11
  · subst hcase
    have e2 : 12*y + 11 + 1 = 12*(y+1) + 0 := by ring
    rw [e2, fd_norm y 11 (by omega) (by omega), fd_norm (y+1) 0 (by omega) (by omega),
      yearStartDay_step]
    simp only [cumDaysBefore]
    norm_num
    split_ifs <;> omega
  · have e2 : 12*y + m + 1 = 12*y + (m+1) := by ring
    rw [e2, fd_norm y m h0 h1, fd_norm y (m+1) (by omega) (by omega)]
    have hlt : m < 11 := by omega
    interval_cases m <;> simp only [cumDaysBefore] <;> norm_num <;> split_ifs <;> omega

theorem firstDay_add_nat (mi : Int) (n : Nat) :
    firstDayOfMonthIndex mi + 28*n ≤ firstDayOfMonthIndex (mi + n) := by
  induction n with
  | zero => simp
  | succ k ih =>
      have h := firstDay_step (mi + (k : Int))
      have e2 : mi + ((k+1 : Nat) : Int) = mi + (k : Int) + 1 := by push_cast; ring
      rw [e2]
      push_cast
      omega

theorem firstDay_mono {mi mj : Int} (h : mi ≤ mj) :
    firstDayOfMonthIndex mi ≤ firstDayOfMonthIndex mj := by
  have hthis := firstDay_add_nat mi (mj - mi).toNat
  have hn : mi + (((mj - mi).toNat : Nat) : Int) = mj := by omega
  rw [hn] at hthis
  omega

theorem firstDay_strict_mono {mi mj : Int} (h : mi < mj) :
    firstDayOfMonthIndex mi + 28 ≤ firstDayOfMonthIndex mj := by
  have h1 := (firstDay_step mi).1
  have h2 := firstDay_mono (show mi + 1 ≤ mj by omega)
  omega

/-! ### Locating the month containing a given day

`monthIndexOfDay` computes the unique month index `mi` with
`firstDayOfMonthIndex mi ≤ d < firstDayOfMonthIndex (mi+1)`.  It starts
from a linear estimate (4800 months per 146097-day Gregorian cycle) and
walks to the correct month; the walk is written with an explicit fuel
that is provably sufficient.  This implements the host's
`getFullYear` / `getMonth` / `getDate` accessors on midnight dates. -/

def upGo : Nat → Int → Int → Int
  | 0, _, mi => mi
  | n+1, d, mi =>
      if firstDayOfMonthIndex (mi+1) ≤ d then upGo n d (mi+1) else mi

def downGo : Nat → Int → Int → Int
  | 0, _, mi => mi
  | n+1, d, mi =>
      if d < firstDayOfMonthIndex mi then downGo n d (mi-1) else mi

def monthIndexOfDay (d : Int) : Int :=
  let g := (4800 * d) / 146097
  if firstDayOfMonthIndex g ≤ d then upGo (d - firstDayOfMonthIndex g).toNat d g
  else downGo (firstDayOfMonthIndex g - d).toNat d (g-1)

theorem upGo_spec : ∀ (n : Nat) (d mi : Int), firstDayOfMonthIndex mi ≤ d →
    (d - firstDayOfMonthIndex mi).toNat ≤ n →
    firstDayOfMonthIndex (upGo n d mi) ≤ d ∧ d < firstDayOfMonthIndex (upGo n d mi + 1) := by
  intro n
  induction n with
  | zero =>
      intro d mi hle hfuel
      have := (firstDay_step mi).1
      simp only [upGo]
      omega
  | succ k ih =>
      intro d mi hle hfuel
      simp only [upGo]
      split
      · next hstep =>
          apply ih d (mi+1) hstep
          have := (firstDay_step mi).1
          omega
      · next hstep =>
          omega

theorem downGo_spec : ∀ (n : Nat) (d mi : Int), d < firstDayOfMonthIndex (mi+1) →
    (firstDayOfMonthIndex mi - d).toNat ≤ n →
    firstDayOfMonthIndex (downGo n d mi) ≤ d ∧
      d < firstDayOfMonthIndex (downGo n d mi + 1) := by
  intro n
  induction n with
  | zero =>
      intro d mi hlt hfuel
      simp only [downGo]
      omega
  | succ k ih =>
      intro d mi hlt hfuel
      simp only [downGo]
      split
      · next hstep =>
          have hstep2 := (firstDay_step (mi-1)).1
          rw [show mi - 1 + 1 = mi by omega] at hstep2
          exact ih d (mi-1) (by rw [show mi - 1 + 1 = mi by omega]; omega) (by omega)
      · next hstep =>
          omega

theorem monthIndexOfDay_spec (d : Int) :
    firstDayOfMonthIndex (monthIndexOfDay d) ≤ d ∧
      d < firstDayOfMonthIndex (monthIndexOfDay d + 1) := by
  simp only [monthIndexOfDay]
  set g := (4800 * d) / 146097 with hg
  split
  · next hle => exact upGo_spec _ d g hle (by omega)
  · next hgt =>
      apply downGo_spec _ d (g-1) (by rw [show g - 1 + 1 = g by omega]; omega)
      have := firstDay_mono (show g - 1 ≤ g by omega)
      omega

/-- The month index of a day is uniquely determined. -/
theorem monthIndexOfDay_unique {d mi : Int} (h1 : firstDayOfMonthIndex mi ≤ d)
    (h2 : d < firstDayOfMonthIndex (mi+1)) : monthIndexOfDay d = mi := by
  have hspec := monthIndexOfDay_spec d
  by_contra hne
  rcases lt_or_gt_of_ne hne with hlt | hgt
  · have := firstDay_mono (show monthIndexOfDay d + 1 ≤ mi by omega)
    omega
  · have := firstDay_mono (show mi + 1 ≤ monthIndexOfDay d by omega)
    omega

/-! ### The host `Date` interface on midnight dates -/

/-- `new Date(y, m, d)` (month `m` 0-based, arbitrary integer `m`, `d`
normalized by the host), as an epoch day number. -/
def mkDate (y m d : Int) : Int := firstDayOfMonthIndex (12*y + m) + (d - 1)

/-- `date.getFullYear()`. -/
def yearOfDay (d : Int) : Int := monthIndexOfDay d / 12

/-- `date.getMonth()` (0-based). -/
def monthOfDay (d : Int) : Int := monthIndexOfDay d % 12

/-- `date.getDate()` (1-based day of month). -/
def dayOfMonth (d : Int) : Int := d - firstDayOfMonthIndex (monthIndexOfDay d) + 1

/-- `date.getDay()`: 0 = Sunday … 6 = Saturday.  Day number 0
(0000-01-01) was a Saturday. -/
def jsGetDay (d : Int) : Int := (d + 6) % 7

/-- `addDays(date, days)` from the source: `setDate(getDate() + days)`,
i.e. plain day addition. -/
def addDays (date days : Int) : Int := date + days

/-- `date.getTime()` in milliseconds since the Unix epoch: day number
0 is 719528 days before 1970-01-01. -/
def dateGetTime (d : Int) : Int := (d - 719528) * 86400000

theorem monthIndexOfDay_mkDate (y m : Int) :
    monthIndexOfDay (mkDate y m 1) = 12*y + m := by
  apply monthIndexOfDay_unique <;> unfold mkDate <;>
    have := (firstDay_step (12*y + m)).1 <;> omega

/-! ## Data model

`Stay` mirrors the `Stay` row type (`src/types`), with the two stored
date strings replaced by their `parseDateSafe` results (`none` =
absent/blank/unparseable, `some d` = parsed midnight date `d`). -/

structure Stay where
  id : Int
  guest_name : String
  guest_phone : String
  guest_email : String
  guest_address : String
  apartment_id : Int
  people_count : Int
  nights_count : Int
  linen : Option String
  rating : Option Int
  notes : Option String
  year : Int
  check_in : Option Int
  check_out : Option Int
deriving DecidableEq

/-- The derived half-open interval; the source field `end` is a Lean
keyword, rendered here as `stop`. -/
structure StayInterval where
  start : Int
  stop : Int
deriving DecidableEq

/-- `getStayInterval` (Stays.tsx:1096).  The source guard is
`start && end && end > start`; `Number.isFinite(nights_count)` is true
for every integer column value, so `inferredNights` is
`Math.max(1, nights_count)`. -/
def getStayInterval (stay : Stay) : Option StayInterval :=
  match stay.check_in, stay.check_out with
  | some start, some stop =>
      if start < stop then some ⟨start, stop⟩
      else some ⟨start, addDays start (max 1 stay.nights_count)⟩
  | some start, none => some ⟨start, addDays start (max 1 stay.nights_count)⟩
  | none, some stop => some ⟨addDays stop (-1), stop⟩
  | none, none => none

/-- `intervalOverlaps` (Stays.tsx:1122). -/
def intervalOverlaps (intervalStart intervalEnd filterStart filterEnd : Int) : Bool :=
  decide (intervalStart < filterEnd) && decide (intervalEnd > filterStart)

/-- Loop body of `includesMonth` (Stays.tsx:1131): the cursor is always
the first day of the month with index `mi`; `cursor.setMonth(+1)` is
`mi+1`.  The fuel counts at least `stop - firstDay mi` iterations, which
is provably enough (each month step advances the cursor by ≥ 28 days). -/
def includesMonthGo (month stop : Int) : Nat → Int → Bool
  | 0, _ => false
  | n+1, mi =>
      if firstDayOfMonthIndex mi < stop then
        if mi % 12 + 1 = month then true else includesMonthGo month stop n (mi+1)
      else false

/-- `includesMonth` (Stays.tsx:1131): the cursor starts at
`new Date(start.getFullYear(), start.getMonth(), 1)`, the first day of
`start`'s month. -/
def includesMonth (interval : StayInterval) (month : Int) : Bool :=
  let mi0 := monthIndexOfDay interval.start
  includesMonthGo month interval.stop (interval.stop - firstDayOfMonthIndex mi0).toNat mi0

/-- `getStayRecencyScore` (Stays.tsx:1140): check-in time, else
check-out time, else `new Date(year, 11, 31).getTime()`. -/
def getStayRecencyScore (stay : Stay) : Int :=
  match stay.check_in with
  | some d => dateGetTime d
  | none =>
      match stay.check_out with
      | some d => dateGetTime d
      | none => dateGetTime (mkDate stay.year 11 31)

/-- The comparator of `sortStaysByRecency` (Stays.tsx:1437), as the
boolean "`left` may precede `right`" relation: the comparator value
`scoreDiff = score right - score left` (else `right.id - left.id`)
is ≤ 0. -/
def staysLE (left right : Stay) : Bool :=
  if getStayRecencyScore right = getStayRecencyScore left
  then decide (right.id ≤ left.id)
  else decide (getStayRecencyScore right < getStayRecencyScore left)

/-- `sortStaysByRecency` (Stays.tsx:1437): `Array.prototype.sort` with a
consistent comparator, modelled by merge sort on the comparator's ≤. -/
def sortStaysByRecency (stays : List Stay) : List Stay := stays.mergeSort staysLE

/-! ## Filter validation (`parseFilters`, Stays.tsx:1411)

A raw filter field is an arbitrary user string; the code consumes it
only through JS truthiness (empty string is falsy) and
`Number.parseInt(·, 10)`.  `RawValue` is that quotient: `empty` for the
empty string, `int n` for a string parsing to `n`, `nan` for a
non-empty string whose `parseInt` is `NaN`. -/

inductive RawValue where
  | empty
  | int (n : Int)
  | nan
deriving DecidableEq

structure ConsultFilters where
  apartmentId : RawValue
  year : RawValue
  month : RawValue

structure ParsedFilters where
  apartmentId : Option Int
  year : Option Int
  month : Option Int
deriving DecidableEq

/-- `new Date().getFullYear()` is the host clock's year; the model
passes it explicitly.  Constants from Stays.tsx:984. -/
def minYear : Int := 2000

def maxYear (currentYear : Int) : Int := currentYear + 1

def filterMinYear : Int := 2015

def filterMaxYear (currentYear : Int) : Int := currentYear

/-- The value a raw field contributes to the parsed filter
(`filters.x ? parseInt(filters.x) : null`); `nan` never reaches the
parsed record because validation rejects it first. -/
def RawValue.parsed : RawValue → Option Int
  | .empty => none
  | .int n => some n
  | .nan => none

/-- `parseFilters` (Stays.tsx:1411).  Each guard is the literal
translation of `truthy && (!v || v out of range)`; for an integer `n`,
`!n` is `n = 0`. -/
def parseFilters (currentYear : Int) (filters : ConsultFilters) : Except String ParsedFilters :=
  if (match filters.apartmentId with
      | .empty => false
      | .nan => true
      | .int n => decide (n ≤ 0)) then
    .error "Apartamento inválido."
  else if (match filters.year with
      | .empty => false
      | .nan => true
      | .int n => decide (n = 0 ∨ n < filterMinYear ∨ n > filterMaxYear currentYear)) then
    .error ("Ano inválido. Usa um valor entre " ++ toString filterMinYear ++ " e "
      ++ toString (filterMaxYear currentYear) ++ ".")
  else if (match filters.month with
      | .empty => false
      | .nan => true
      | .int n => decide (n = 0 ∨ n < 1 ∨ n > 12)) then
    .error "Mês inválido."
  else
    .ok ⟨filters.apartmentId.parsed, filters.year.parsed, filters.month.parsed⟩

/-- `filterStaysByFilters` (Stays.tsx:1445).  The precomputed
`yearStart`/`yearEnd`/`monthStart`/`monthEnd` bounds are inlined at
their use sites; they are `some` exactly when the corresponding filter
fields are, so the `!monthStart || !monthEnd` / `!yearStart || !yearEnd`
guards never fire on their own. -/
def filterStaysByFilters (stays : List Stay) (filters : ParsedFilters) : List Stay :=
  if filters.year = none ∧ filters.month = none then
    sortStaysByRecency stays
  else
    sortStaysByRecency (stays.filter (fun stay =>
      match getStayInterval stay, filters.year, filters.month with
      | none, some _, some _ => false
      | some i, some year, some month =>
          intervalOverlaps i.start i.stop (mkDate year (month-1) 1) (mkDate year month 1)
      | none, some year, none => decide (stay.year = year)
      | some i, some year, none =>
          intervalOverlaps i.start i.stop (mkDate year 0 1) (mkDate (year+1) 0 1)
      | none, none, some _ => false
      | some i, none, some month => includesMonth i month
      | _, none, none => true))

/-! ## Properties of the derived interval and the month-membership loop -/

theorem mkDate_one (y m : Int) : mkDate y m 1 = firstDayOfMonthIndex (12*y + m) := by
  simp [mkDate]

/-- Every derived interval is non-empty. -/
theorem getStayInterval_pos (stay : Stay) (i : StayInterval)
    (h : getStayInterval stay = some i) : i.start < i.stop := by
  have hmax : 1 ≤ max 1 stay.nights_count := le_max_left _ _
  unfold getStayInterval at h
  rcases hci : stay.check_in with _ | s <;> rcases hco : stay.check_out with _ | e <;>
      rw [hci, hco] at h <;> simp only [addDays] at h
  · cases h
  · cases h
    dsimp only
    omega
  · cases h
    dsimp only
    omega
  · split at h <;> cases h <;> dsimp only <;> omega

theorem includesMonthGo_spec (month stop : Int) : ∀ (n : Nat) (mi : Int),
    (stop - firstDayOfMonthIndex mi).toNat ≤ n →
    (includesMonthGo month stop n mi = true ↔
      ∃ mj, mi ≤ mj ∧ firstDayOfMonthIndex mj < stop ∧ mj % 12 + 1 = month) := by
  intro n
  induction n with
  | zero =>
      intro mi hfuel
      simp only [includesMonthGo, Bool.false_eq_true, false_iff]
      rintro ⟨mj, h1, h2, h3⟩
      have := firstDay_mono h1
      omega
  | succ k ih =>
      intro mi hfuel
      simp only [includesMonthGo]
      split
      · next hlt =>
          split
          · next hmatch =>
              simp only [true_iff]
              exact ⟨mi, le_refl _, hlt, hmatch⟩
          · next hmatch =>
              rw [ih (mi+1) (by have := (firstDay_step mi).1; omega)]
              constructor
              · rintro ⟨mj, h1, h2, h3⟩
                exact ⟨mj, by omega, h2, h3⟩
              · rintro ⟨mj, h1, h2, h3⟩
                refine ⟨mj, ?_, h2, h3⟩
                rcases eq_or_lt_of_le h1 with heq | hgt
                · exact absurd (heq ▸ h3) hmatch
                · omega
      · next hge =>
          simp only [Bool.false_eq_true, false_iff]
          rintro ⟨mj, h1, h2, h3⟩
          have := firstDay_mono h1
          omega

/-- The source's month-membership loop agrees with "the interval
overlaps calendar month `month` of some year" (the spec's reading),
for any non-empty interval and month number in 1..12. -/
theorem includesMonth_iff (i : StayInterval) (month : Int) (hm1 : 1 ≤ month)
    (hm2 : month ≤ 12) :
    includesMonth i month = true ↔
      ∃ y, intervalOverlaps i.start i.stop (mkDate y (month-1) 1) (mkDate y month 1) = true := by
  unfold includesMonth
  have hspec := monthIndexOfDay_spec i.start
  set mi0 := monthIndexOfDay i.start with hmi0
  rw [includesMonthGo_spec month i.stop _ mi0 (le_refl _)]
  constructor
  · rintro ⟨mj, h1, h2, h3⟩
    refine ⟨mj / 12, ?_⟩
    have hrw1 : 12*(mj/12) + (month - 1) = mj := by omega
    have hrw2 : 12*(mj/12) + month = mj + 1 := by omega
    rw [mkDate_one, mkDate_one, hrw1, hrw2]
    have hmono := firstDay_mono (show mi0 + 1 ≤ mj + 1 by omega)
    simp only [intervalOverlaps, gt_iff_lt, Bool.and_eq_true, decide_eq_true_eq]
    omega
  · rintro ⟨y, hov⟩
    rw [mkDate_one, mkDate_one] at hov
    have hrw2 : 12*y + month = (12*y + (month - 1)) + 1 := by ring
    rw [hrw2] at hov
    simp only [intervalOverlaps, gt_iff_lt, Bool.and_eq_true, decide_eq_true_eq] at hov
    refine ⟨12*y + (month - 1), ?_, hov.2, by omega⟩
    by_contra hlt
    have := firstDay_mono (show 12*y + (month-1) + 1 ≤ mi0 by omega)
    omega

/-! ## Grouping engine (`groupStaysForExport`, Stays.tsx:1483)

The JS `Map` nesting (year → month → stay list, insertion-ordered,
appending pushes) is modelled by nested association lists with ordered
upsert. -/

structure ExportMonthGroup where
  month : Int
  stays : List Stay

structure ExportYearGroup where
  year : Int
  months : List ExportMonthGroup

/-- `monthMap.get(month)!.push(stay)` with `set` on a missing key. -/
def pushMonth : List (Int × List Stay) → Int → Stay → List (Int × List Stay)
  | [], month, stay => [(month, [stay])]
  | (k, ss) :: rest, month, stay =>
      if k = month then (k, ss ++ [stay]) :: rest
      else (k, ss) :: pushMonth rest month stay

/-- `yearMap.get(year)!` upsert followed by the month-level push. -/
def pushYear : List (Int × List (Int × List Stay)) → Int → Int → Stay →
    List (Int × List (Int × List Stay))
  | [], year, month, stay => [(year, [(month, [stay])])]
  | (k, mm) :: rest, year, month, stay =>
      if k = year then (k, pushMonth mm month stay) :: rest
      else (k, mm) :: pushYear rest year month stay

/-- The per-stay anchor date:
`interval?.start ?? parseDateSafe(stay.check_out) ?? new Date(stay.year, 0, 1)`. -/
def stayAnchorDate (stay : Stay) : Int :=
  match getStayInterval stay with
  | some i => i.start
  | none =>
      match stay.check_out with
      | some d => d
      | none => mkDate stay.year 0 1

/-- Descending sort on the first component (`right[0] - left[0]`). -/
def keyDescLE (left right : Int × α) : Bool := decide (right.1 ≤ left.1)

/-- `groupStaysForExport` (Stays.tsx:1483). -/
def groupStaysForExport (stays : List Stay) (filters : ParsedFilters) :
    List ExportYearGroup :=
  let yearMap := stays.foldl (fun ym stay =>
    let anchorDate := stayAnchorDate stay
    let year := filters.year.getD (yearOfDay anchorDate)
    let month := filters.month.getD (monthOfDay anchorDate + 1)
    pushYear ym year month stay) []
  (yearMap.mergeSort keyDescLE).map (fun e =>
    ⟨e.1, (e.2.mergeSort keyDescLE).map (fun me => ⟨me.1, sortStaysByRecency me.2⟩)⟩)

/-! ## Calendar paint engine (`buildCalendarDayStyles`, Stays.tsx:1546) -/

structure StayColor where
  fill : String
  border : String
  text : String
deriving DecidableEq

/-- `exportStayPalette` (Stays.tsx:1008). -/
def exportStayPalette : List StayColor :=
  [⟨"#5e837c", "#5e837c", "#ffffff"⟩,
   ⟨"#ff8786", "#ff8786", "#ffffff"⟩,
   ⟨"#1872cf", "#1872cf", "#ffffff"⟩,
   ⟨"#ff4757", "#ff4757", "#ffffff"⟩,
   ⟨"#ffbc08", "#ffbc08", "#1f2a33"⟩]

/-- `getColorForStay` (Stays.tsx:1214): palette cycling by position.
The default is unreachable (`index % 5 < 5`). -/
def getColorForStay (index : Nat) : StayColor :=
  exportStayPalette.getD (index % exportStayPalette.length) ⟨"", "", ""⟩

/-- `addUniqueDayStay` (Stays.tsx:1521), on a day-keyed association list
(the ISO-day-string key of the source is injective on midnight dates,
so keying by day number is equivalent). -/
def addUniqueDayStay : List (Int × List Int) → Int → Int → List (Int × List Int)
  | [], day, stayId => [(day, [stayId])]
  | (d, ids) :: rest, day, stayId =>
      if d = day then (d, if ids.contains stayId then ids else ids ++ [stayId]) :: rest
      else (d, ids) :: addUniqueDayStay rest day stayId

/-- `map.get(dayKey) ?? []` at the use sites of the three day maps. -/
def dayLookup (map : List (Int × List Int)) (day : Int) : List Int :=
  match map.find? (fun e => decide (e.1 = day)) with
  | some e => e.2
  | none => []

/-- The occupancy-marking `while (cursor < overlapEnd)` loop
(Stays.tsx:1580), with its exact iteration count
`(overlapEnd - overlapStart).toNat` made explicit. -/
def markOccupancyGo (stayId : Int) : Nat → List (Int × List Int) → Int → List (Int × List Int)
  | 0, map, _ => map
  | n+1, map, cursor => markOccupancyGo stayId n (addUniqueDayStay map cursor stayId) (cursor + 1)

/-- The three per-day id maps accumulated by the first loop of
`buildCalendarDayStyles`. -/
structure CalendarAcc where
  occupancyByDay : List (Int × List Int)
  arrivalsByDay : List (Int × List Int)
  departuresByDay : List (Int × List Int)

/-- `checkOutDate ?? interval?.end ?? null` (Stays.tsx:1565): the day a
stay departs. -/
def stayDepartureDate (stay : Stay) : Option Int :=
  match stay.check_out with
  | some d => some d
  | none => (getStayInterval stay).map (fun i => i.stop)

/-- One iteration of the `for (const stay of stays)` loop of
`buildCalendarDayStyles` (Stays.tsx:1561). -/
def paintStayAcc (gridStart gridEnd : Int) (acc : CalendarAcc) (stay : Stay) : CalendarAcc :=
  let interval := getStayInterval stay
  let departureDate : Option Int := stayDepartureDate stay
  let arr := match stay.check_in with
    | some d =>
        if gridStart ≤ d ∧ d < gridEnd then addUniqueDayStay acc.arrivalsByDay d stay.id
        else acc.arrivalsByDay
    | none => acc.arrivalsByDay
  let dep := match departureDate with
    | some d =>
        if gridStart ≤ d ∧ d < gridEnd then addUniqueDayStay acc.departuresByDay d stay.id
        else acc.departuresByDay
    | none => acc.departuresByDay
  let occ := match interval with
    | some i =>
        if intervalOverlaps i.start i.stop gridStart gridEnd then
          markOccupancyGo stay.id (min i.stop gridEnd - max i.start gridStart).toNat
            acc.occupancyByDay (max i.start gridStart)
        else acc.occupancyByDay
    | none => acc.occupancyByDay
  ⟨occ, arr, dep⟩

inductive CellClass where
  | occupied
  | turnover
  | departure
deriving DecidableEq

/-- `buildMultiColorGradient` (Stays.tsx:1532), as the structured value
the produced CSS string denotes. -/
inductive Gradient where
  | emptyFill
  | single (color : String)
  | stripes (colors : List String)
deriving DecidableEq

def buildMultiColorGradient (colors : List String) : Gradient :=
  match colors with
  | [] => .emptyFill
  | [c] => .single c
  | cs => .stripes cs

/-- The inline style each painted cell receives, as structured data
(the CSS strings of the source carry exactly these color arguments). -/
inductive CellStyle where
  | turnoverSplit (depColor arrColor textColor : String)
  | departureSplit (depColor baseDayColor textColor : String)
  | bandedFill (fill : Gradient) (textColor : String)
deriving DecidableEq

structure CellPaint where
  cls : CellClass
  spillover : Bool
  style : CellStyle
deriving DecidableEq

/-- `colorByStayId.get(id)` on the id → color assignment. -/
def colorLookup (colorByStayId : List (Int × StayColor)) (id : Int) : Option StayColor :=
  (colorByStayId.find? (fun e => decide (e.1 = id))).map (·.2)

/-- The per-cell classification step (body of the
`for (let index = 0; index < 42; ...)` loop, Stays.tsx:1586): `none`
means the cell is left unpainted (blank). -/
def classifyDay (acc : CalendarAcc) (colorByStayId : List (Int × StayColor))
    (year month : Int) (dayDate : Int) : Option CellPaint :=
  let occupiedIds := dayLookup acc.occupancyByDay dayDate
  let arrivalIds := dayLookup acc.arrivalsByDay dayDate
  let departureIds := dayLookup acc.departuresByDay dayDate
  let isOutsideMonth := decide (monthOfDay dayDate + 1 ≠ month ∨ yearOfDay dayDate ≠ year)
  let departureId := departureIds.head?
  let arrivalId := match arrivalIds.find? (fun id => decide (some id ≠ departureId)) with
    | some id => some id
    | none => arrivalIds.head?
  let turnoverPaint : Option CellPaint := match departureId, arrivalId with
    | some dId, some aId =>
        if dId ≠ aId then
          match colorLookup colorByStayId dId, colorLookup colorByStayId aId with
          | some depColor, some arrColor =>
              some ⟨.turnover, isOutsideMonth,
                .turnoverSplit depColor.border arrColor.border "#ffffff"⟩
          | _, _ => none
        else none
    | _, _ => none
  match turnoverPaint with
  | some p => some p
  | none =>
      if occupiedIds.isEmpty then
        match departureId with
        | some dId =>
            match colorLookup colorByStayId dId with
            | some depColor =>
                some ⟨.departure, isOutsideMonth,
                  .departureSplit depColor.border
                    (if isOutsideMonth then "#f4f7fb" else "#ffffff") "#ffffff"⟩
            | none => none
        | none => none
      else
        let colors := occupiedIds.filterMap (fun id =>
          (colorLookup colorByStayId id).map (·.border))
        match occupiedIds.head? with
        | none => none
        | some firstId =>
            match colorLookup colorByStayId firstId with
            | none => none
            | some _ =>
                if colors.isEmpty then none
                else some ⟨.occupied, isOutsideMonth,
                  .bandedFill (buildMultiColorGradient colors) "#ffffff"⟩

/-- `new Date(year, month - 1, 1 - monthStartWeekday)` (Stays.tsx:1558):
the Monday on or before the first day of the target month. -/
def gridStartOf (year month : Int) : Int :=
  mkDate year (month - 1) (1 - (jsGetDay (mkDate year (month - 1) 1) + 6) % 7)

/-- The three id-by-day maps accumulated over all stays
(`occupancyByDay`, `arrivalsByDay`, `departuresByDay` after the first
loop of `buildCalendarDayStyles`). -/
def calendarAccOf (stays : List Stay) (year month : Int) : CalendarAcc :=
  stays.foldl
    (paintStayAcc (gridStartOf year month) (addDays (gridStartOf year month) 42)) ⟨[], [], []⟩

/-- The 42 grid days, `gridStart` through `gridStart + 41`. -/
def calendarGridDays (year month : Int) : List Int :=
  (List.range 42).map (fun (index : Nat) => addDays (gridStartOf year month) (index : Int))

/-- `buildCalendarDayStyles` (Stays.tsx:1546): the day-keyed style map. -/
def buildCalendarDayStyles (stays : List Stay) (year month : Int)
    (colorByStayId : List (Int × StayColor)) : List (Int × CellPaint) :=
  (List.range 42).filterMap (fun (index : Nat) =>
    (classifyDay (calendarAccOf stays year month) colorByStayId year month
        (addDays (gridStartOf year month) (index : Int))).map
      (fun p => (addDays (gridStartOf year month) (index : Int), p)))

/-- `dayStyles.get(dayKey)`. -/
def paintLookup (styles : List (Int × CellPaint)) (day : Int) : Option CellPaint :=
  (styles.find? (fun e => decide (e.1 = day))).map (·.2)

/-! ## Document renderer (`buildExportDocumentHtml`, Stays.tsx:1639)

The produced HTML page is modelled as the structured data it embeds:
header, 42 calendar cells, guest record cards, and the trailing script
list (the `print` intent appends the one `<script>` that calls
`window.print()` on load and `window.close()` after printing; `pdf`
appends nothing). -/

inductive ExportOutputMode where
  | pdf
  | print
deriving DecidableEq

/-- The chronological comparator of `orderedStays` (Stays.tsx:1647):
primary key `interval?.start ?? check_out ?? Jan 1 of year` (as a
time), secondary `interval?.end ?? Number.MAX_SAFE_INTEGER`, then
ascending id. -/
def exportStartKey (stay : Stay) : Int :=
  match getStayInterval stay with
  | some i => dateGetTime i.start
  | none =>
      match stay.check_out with
      | some d => dateGetTime d
      | none => dateGetTime (mkDate stay.year 0 1)

def exportEndKey (stay : Stay) : Int :=
  match getStayInterval stay with
  | some i => dateGetTime i.stop
  | none => 9007199254740991

def exportOrderLE (left right : Stay) : Bool :=
  if exportStartKey left = exportStartKey right then
    if exportEndKey left = exportEndKey right then decide (left.id ≤ right.id)
    else decide (exportEndKey left < exportEndKey right)
  else decide (exportStartKey left < exportStartKey right)

/-- `monthLabelByValue[String(month)] ?? `Mês ${month}`` (Stays.tsx:989,1666). -/
def monthLabel (m : Int) : String :=
  if m = 1 then "Janeiro" else if m = 2 then "Fevereiro" else if m = 3 then "Março"
  else if m = 4 then "Abril" else if m = 5 then "Maio" else if m = 6 then "Junho"
  else if m = 7 then "Julho" else if m = 8 then "Agosto" else if m = 9 then "Setembro"
  else if m = 10 then "Outubro" else if m = 11 then "Novembro" else if m = 12 then "Dezembro"
  else "Mês " ++ toString m

/-- `calculateNights` (Stays.tsx:1050) on the stays' parsed dates
(the source re-parses the stored strings; both dates present and
parsed, difference in whole days, `null` unless positive). -/
def calculateNights (checkIn checkOut : Option Int) : Option Int :=
  match checkIn, checkOut with
  | some s, some e => if e - s ≤ 0 then none else some (e - s)
  | _, _ => none

structure ExportDocumentHeader where
  monthLabel : String
  year : Int
  apartmentLabel : String
  staysCount : Nat
deriving DecidableEq

structure CalendarCellView where
  day : Int
  dayOfMonthLabel : Int
  outside : Bool
  paint : Option CellPaint
deriving DecidableEq

structure StayRecordView where
  guest_name : String
  check_in : Option Int
  check_out : Option Int
  guest_phone : String
  guest_email : String
  guest_address : String
  nights : Int
  people_count : Int
  linen : Option String
  notes : Option String
  color : StayColor
deriving DecidableEq

/-- The auto-print script: `window.print()` on load (after 150 ms),
`window.close()` on `afterprint`. -/
inductive ScriptTag where
  | printTrigger
deriving DecidableEq

structure ExportDocument where
  header : ExportDocumentHeader
  calendarCells : List CalendarCellView
  records : List StayRecordView
  scripts : List ScriptTag

/-- `buildExportDocumentHtml` (Stays.tsx:1639), as the structured
document it renders. -/
def buildExportDocumentHtml (stays : List Stay) (year month : Int)
    (apartmentLabel : String) (outputMode : ExportOutputMode) : ExportDocument :=
  let orderedStays := stays.mergeSort exportOrderLE
  let colorByStayId := orderedStays.enum.map (fun e => (e.2.id, getColorForStay e.1))
  let dayStyles := buildCalendarDayStyles orderedStays year month colorByStayId
  let gridStart := gridStartOf year month
  let calendarCells := (List.range 42).map (fun (index : Nat) =>
    let cellDate := addDays gridStart (index : Int)
    { day := cellDate
      dayOfMonthLabel := dayOfMonth cellDate
      outside := decide (monthOfDay cellDate + 1 ≠ month ∨ yearOfDay cellDate ≠ year)
      paint := paintLookup dayStyles cellDate : CalendarCellView })
  let records := orderedStays.enum.map (fun e =>
    { guest_name := e.2.guest_name
      check_in := e.2.check_in
      check_out := e.2.check_out
      guest_phone := e.2.guest_phone
      guest_email := e.2.guest_email
      guest_address := e.2.guest_address
      nights := (calculateNights e.2.check_in e.2.check_out).getD e.2.nights_count
      people_count := e.2.people_count
      linen := e.2.linen
      notes := e.2.notes
      color := (colorLookup colorByStayId e.2.id).getD (getColorForStay e.1) : StayRecordView })
  { header := ⟨monthLabel month, year, apartmentLabel, stays.length⟩
    calendarCells := calendarCells
    records := records
    scripts := match outputMode with
      | .print => [.printTrigger]
      | .pdf => [] }

/-! ## Claim theorems -/

/-- A sample stay builder for concrete witnesses (irrelevant guest
fields fixed). -/
def sampleStay (id : Int) (ci co : Option Int) (nights : Int) (year : Int) : Stay :=
  ⟨id, "A", "", "", "", 1, 2, nights, none, none, none, year, ci, co⟩

/-- C2: `getStayInterval` returns the stored pair when both dates parse
with `check_out > check_in`; with only `check_in`, the interval of
length exactly `max 1 nights_count` days (hence exactly `n` days for a
positive stored `nights_count = n`); with only `check_out`, the one-day
interval ending at `check_out`; and `none` when neither date is
available. -/
theorem getStayInterval_cases (stay : Stay) :
    (∀ s e, stay.check_in = some s → stay.check_out = some e → e > s →
      getStayInterval stay = some ⟨s, e⟩) ∧
    (∀ s, stay.check_in = some s → stay.check_out = none →
      getStayInterval stay = some ⟨s, addDays s (max 1 stay.nights_count)⟩ ∧
      (1 ≤ stay.nights_count → getStayInterval stay = some ⟨s, addDays s stay.nights_count⟩)) ∧
    (∀ e, stay.check_in = none → stay.check_out = some e →
      getStayInterval stay = some ⟨addDays e (-1), e⟩) ∧
    (stay.check_in = none → stay.check_out = none → getStayInterval stay = none) := by
  refine ⟨?_, ?_, ?_, ?_⟩
  · intro s e h1 h2 h3
    simp [getStayInterval, h1, h2, h3]
  · intro s h1 h2
    constructor
    · simp [getStayInterval, h1, h2]
    · intro hn
      simp [getStayInterval, h1, h2, max_eq_right hn]
  · intro e h1 h2
    simp [getStayInterval, h1, h2]
  · intro h1 h2
    simp [getStayInterval, h1, h2]

/-- Witness for C2: the four branches evaluated on concrete stays
(days 739050 = 2024-01-30, 739055 = 2024-02-04). -/
theorem getStayInterval_cases_witness :
    getStayInterval (sampleStay 1 (some 739050) (some 739055) 3 2024) =
      some ⟨739050, 739055⟩ ∧
    getStayInterval (sampleStay 2 (some 739050) none 3 2024) = some ⟨739050, 739053⟩ ∧
    getStayInterval (sampleStay 3 none (some 739055) 3 2024) = some ⟨739054, 739055⟩ ∧
    getStayInterval (sampleStay 4 none none 3 2024) = none := by
  refine ⟨(getStayInterval_cases _).1 739050 739055 rfl rfl (by decide), ?_, ?_, ?_⟩
  · have h := ((getStayInterval_cases (sampleStay 2 (some 739050) none 3 2024)).2.1
      739050 rfl rfl).2 (by decide)
    simpa [addDays] using h
  · have h := (getStayInterval_cases (sampleStay 3 none (some 739055) 3 2024)).2.2.1
      739055 rfl rfl
    simpa [addDays] using h
  · exact (getStayInterval_cases _).2.2.2 rfl rfl

/-- C3: `intervalOverlaps` is the half-open overlap test
`aStart < bEnd ∧ aEnd > bStart`, symmetric under swapping the two
intervals, and an exact boundary touch never counts as overlap. -/
theorem intervalOverlaps_spec (aStart aEnd bStart bEnd : Int) :
    (intervalOverlaps aStart aEnd bStart bEnd = true ↔ aStart < bEnd ∧ aEnd > bStart) ∧
    intervalOverlaps aStart aEnd bStart bEnd = intervalOverlaps bStart bEnd aStart aEnd ∧
    (aEnd = bStart ∨ bEnd = aStart → intervalOverlaps aStart aEnd bStart bEnd = false) := by
  refine ⟨by simp [intervalOverlaps], ?_, ?_⟩
  · simp only [intervalOverlaps, gt_iff_lt]
    by_cases h1 : aStart < bEnd <;> by_cases h2 : bStart < aEnd <;> simp [h1, h2]
  · rintro (rfl | rfl) <;> simp [intervalOverlaps]

/-- Witness for C3: the spec's example, `[2024-01-01, 2024-01-05)`
against `[2024-01-05, 2024-01-10)` (days 739251, 739255, 739260). -/
theorem intervalOverlaps_spec_witness :
    intervalOverlaps 739251 739255 739255 739260 = false :=
  (intervalOverlaps_spec 739251 739255 739255 739260).2.2 (Or.inl rfl)

/-- C10: when both dates parse but `check_out ≤ check_in`, the
`end > start` guard fails and `getStayInterval` falls through to the
check-in branch: the stored `check_out` is ignored and the result is
`[check_in, check_in + max(1, nights_count))`, exactly as if
`check_out` were absent. -/
theorem getStayInterval_invertedDates (stay : Stay) (s e : Int)
    (h1 : stay.check_in = some s) (h2 : stay.check_out = some e) (h3 : e ≤ s) :
    getStayInterval stay = some ⟨s, addDays s (max 1 stay.nights_count)⟩ ∧
    getStayInterval stay = getStayInterval { stay with check_out := none } := by
  constructor
  · simp [getStayInterval, h1, h2, show ¬ s < e by omega]
  · simp [getStayInterval, h1, h2, show ¬ s < e by omega]

/-- Witness for C10: equal parsed dates (a degenerate row), nights 4. -/
theorem getStayInterval_invertedDates_witness :
    getStayInterval (sampleStay 9 (some 739050) (some 739050) 4 2024) =
      some ⟨739050, 739054⟩ ∧
    getStayInterval (sampleStay 9 (some 739050) (some 739050) 4 2024) =
      getStayInterval { sampleStay 9 (some 739050) (some 739050) 4 2024 with
        check_out := none } := by
  have h := getStayInterval_invertedDates (sampleStay 9 (some 739050) (some 739050) 4 2024)
    739050 739050 rfl rfl (by decide)
  exact ⟨by simpa [addDays] using h.1, h.2⟩

/-- C9: the document built in `pdf` mode contains no print-trigger
script; the one built in `print` mode contains exactly one. -/
theorem buildExportDocumentHtml_printTrigger (stays : List Stay) (year month : Int)
    (apartmentLabel : String) :
    (buildExportDocumentHtml stays year month apartmentLabel .pdf).scripts.count
        .printTrigger = 0 ∧
    (buildExportDocumentHtml stays year month apartmentLabel .print).scripts.count
        .printTrigger = 1 :=
  ⟨rfl, rfl⟩

/-- The claim's reading of "apartmentId present and not a positive
integer". -/
def apartmentViolation (f : ConsultFilters) : Prop :=
  match f.apartmentId with
  | .empty => False
  | .nan => True
  | .int n => n ≤ 0

/-- "year present and outside the range [filterMinYear, currentYear]". -/
def yearViolation (currentYear : Int) (f : ConsultFilters) : Prop :=
  match f.year with
  | .empty => False
  | .nan => True
  | .int n => n < filterMinYear ∨ n > filterMaxYear currentYear

/-- "month present and not in 1..12". -/
def monthViolation (f : ConsultFilters) : Prop :=
  match f.month with
  | .empty => False
  | .nan => True
  | .int n => n < 1 ∨ n > 12

/-- C8: `parseFilters` errors exactly on the three violation kinds, the
error names the (first) invalid field, a violation never yields a
parsed filter, and the consult/export year ceiling is strictly below
the creation form's `currentYear + 1` ceiling. -/
theorem parseFilters_spec (currentYear : Int) (f : ConsultFilters) :
    ((∃ msg, parseFilters currentYear f = .error msg) ↔
      apartmentViolation f ∨ yearViolation currentYear f ∨ monthViolation f) ∧
    (apartmentViolation f → parseFilters currentYear f = .error "Apartamento inválido.") ∧
    (¬ apartmentViolation f → yearViolation currentYear f →
      parseFilters currentYear f = .error ("Ano inválido. Usa um valor entre "
        ++ toString filterMinYear ++ " e " ++ toString (filterMaxYear currentYear) ++ ".")) ∧
    (¬ apartmentViolation f → ¬ yearViolation currentYear f → monthViolation f →
      parseFilters currentYear f = .error "Mês inválido.") ∧
    (¬ apartmentViolation f → ¬ yearViolation currentYear f → ¬ monthViolation f →
      parseFilters currentYear f =
        .ok ⟨f.apartmentId.parsed, f.year.parsed, f.month.parsed⟩) ∧
    filterMaxYear currentYear < maxYear currentYear := by
  obtain ⟨a, y, m⟩ := f
  rcases a with _ | na | _ <;> rcases y with _ | ny | _ <;> rcases m with _ | nm | _ <;>
    simp_all [parseFilters, apartmentViolation, yearViolation, monthViolation,
      filterMinYear, filterMaxYear, maxYear, RawValue.parsed] <;>
    try (split_ifs <;> simp_all <;> try omega)

/-- Witness for C8: a concrete violating filter and a concrete valid
one (host year 2026). -/
theorem parseFilters_spec_witness :
    parseFilters 2026 ⟨.int 3, .int 2030, .int 6⟩ =
      .error "Ano inválido. Usa um valor entre 2015 e 2026." ∧
    parseFilters 2026 ⟨.int 3, .int 2024, .int 6⟩ =
      .ok ⟨some 3, some 2024, some 6⟩ := by
  constructor
  · have h := (parseFilters_spec 2026 ⟨.int 3, .int 2030, .int 6⟩).2.2.1
      (by simp [apartmentViolation]) (Or.inr (by norm_num [filterMaxYear]))
    rw [h]
    rfl
  · have h := (parseFilters_spec 2026 ⟨.int 3, .int 2024, .int 6⟩).2.2.2.2.1
      (by simp [apartmentViolation]) (by simp [yearViolation, filterMinYear, filterMaxYear])
      (by simp [monthViolation])
    simpa [RawValue.parsed] using h

/-- The strict "listed earlier" order of the recency comparator:
strictly greater anchor score, or equal score and strictly greater id. -/
def recencyAfter (a b : Stay) : Prop :=
  getStayRecencyScore b < getStayRecencyScore a ∨
    (getStayRecencyScore a = getStayRecencyScore b ∧ b.id < a.id)

theorem staysLE_trans (a b c : Stay) (h1 : staysLE a b = true) (h2 : staysLE b c = true) :
    staysLE a c = true := by
  unfold staysLE at *
  split_ifs at * <;> simp_all <;> omega

theorem staysLE_total (a b : Stay) : (staysLE a b || staysLE b a) = true := by
  unfold staysLE
  split_ifs <;> simp_all <;> omega

theorem staysLE_ne_recencyAfter (a b : Stay) (h1 : staysLE a b = true)
    (h2 : a.id ≠ b.id) : recencyAfter a b := by
  unfold staysLE at h1
  unfold recencyAfter
  split_ifs at h1 <;> simp_all <;> omega

instance : IsAntisymm Stay recencyAfter where
  antisymm a b h1 h2 := by
    unfold recencyAfter at h1 h2
    exact absurd rfl (by omega : ¬ (0 : Int) = 0)

/-- C6: `sortStaysByRecency` permutes its input into a list strictly
ordered by descending anchor score (check-in time, else check-out time,
else Dec 31 of the stored year) with ties broken by descending id; on
stays with distinct ids the comparator is a strict total order, so the
output order is uniquely determined. -/
theorem sortStaysByRecency_spec (stays : List Stay)
    (hid : stays.Pairwise (fun a b => a.id ≠ b.id)) :
    (sortStaysByRecency stays).Perm stays ∧
    (sortStaysByRecency stays).Pairwise recencyAfter ∧
    (∀ l, l.Perm stays → l.Pairwise recencyAfter → l = sortStaysByRecency stays) ∧
    (∀ a b : Stay, a.id ≠ b.id → (recencyAfter a b ↔ ¬ recencyAfter b a)) := by
  have hperm : (sortStaysByRecency stays).Perm stays := List.mergeSort_perm stays staysLE
  have hle : (sortStaysByRecency stays).Pairwise (fun a b => staysLE a b = true) :=
    List.sorted_mergeSort staysLE_trans staysLE_total stays
  have hne : (sortStaysByRecency stays).Pairwise (fun a b => a.id ≠ b.id) :=
    (hperm.pairwise_iff (fun h => Ne.symm h)).mpr hid
  have hsorted : (sortStaysByRecency stays).Pairwise recencyAfter :=
    (hle.and hne).imp (fun h => staysLE_ne_recencyAfter _ _ h.1 h.2)
  refine ⟨hperm, hsorted, ?_, ?_⟩
  · intro l hp hs
    exact List.eq_of_perm_of_sorted (hp.trans hperm.symm) hs hsorted
  · intro a b hab
    unfold recencyAfter
    omega

/-- Witness for C6: two concrete stays with equal anchor scores are
ordered by descending id. -/
theorem sortStaysByRecency_spec_witness :
    (sortStaysByRecency [sampleStay 1 (some 739050) none 2 2024,
      sampleStay 2 (some 739050) none 3 2024]).Perm
      [sampleStay 1 (some 739050) none 2 2024, sampleStay 2 (some 739050) none 3 2024] :=
  (sortStaysByRecency_spec _ (by simp [sampleStay])).1

/-- The spec's keep condition for `applyFilter`, stated from the spec's
words: month-overlap when both fields are set, year-overlap with stored
year fallback when only the year is set, month-in-some-year when only
the month is set, keep-all otherwise. -/
def keepStaySpec (filters : ParsedFilters) (stay : Stay) : Prop :=
  match filters.year, filters.month with
  | some year, some month =>
      ∃ i, getStayInterval stay = some i ∧
        intervalOverlaps i.start i.stop (mkDate year (month-1) 1) (mkDate year month 1) = true
  | some year, none =>
      (∃ i, getStayInterval stay = some i ∧
        intervalOverlaps i.start i.stop (mkDate year 0 1) (mkDate (year+1) 0 1) = true) ∨
      (getStayInterval stay = none ∧ stay.year = year)
  | none, some month =>
      ∃ i, getStayInterval stay = some i ∧
        ∃ y, intervalOverlaps i.start i.stop (mkDate y (month-1) 1) (mkDate y month 1) = true
  | none, none => True

/-- C1: membership in `filterStaysByFilters` is exactly the spec's keep
condition, for any validated filter (a validated month is in 1..12). -/
theorem filterStaysByFilters_mem (stays : List Stay) (filters : ParsedFilters)
    (hm : ∀ m, filters.month = some m → 1 ≤ m ∧ m ≤ 12) (stay : Stay) :
    stay ∈ filterStaysByFilters stays filters ↔ stay ∈ stays ∧ keepStaySpec filters stay := by
  have hmem : ∀ l : List Stay, stay ∈ sortStaysByRecency l ↔ stay ∈ l :=
    fun l => (List.mergeSort_perm l staysLE).mem_iff
  unfold filterStaysByFilters
  rcases hy : filters.year with _ | year <;> rcases hmo : filters.month with _ | month
  · rw [if_pos (⟨rfl, rfl⟩ : (none : Option Int) = none ∧ (none : Option Int) = none), hmem]
    simp [keepStaySpec, hy, hmo]
  · rw [if_neg (by simp [hmo]), hmem, List.mem_filter]
    simp only [hy, hmo, keepStaySpec]
    rcases hi : getStayInterval stay with _ | i <;> simp only [hi]
    · simp
    · rw [includesMonth_iff i month (hm month hmo).1 (hm month hmo).2]
      simp
  · rw [if_neg (by simp [hy]), hmem, List.mem_filter]
    simp only [hy, hmo, keepStaySpec]
    rcases hi : getStayInterval stay with _ | i <;> simp [hi]
  · rw [if_neg (by simp [hy]), hmem, List.mem_filter]
    simp only [hy, hmo, keepStaySpec]
    rcases hi : getStayInterval stay with _ | i <;> simp [hi]
/-- Witness for C1: the spec's scenario — a stay spanning 2024-05-30 to
2024-06-02 (days 739401, 739404) against the filter
`{year: 2024, month: 6}`. -/
theorem filterStaysByFilters_mem_witness :
    sampleStay 7 (some (mkDate 2024 4 30)) (some (mkDate 2024 5 2)) 3 2024 ∈
        filterStaysByFilters
          [sampleStay 7 (some (mkDate 2024 4 30)) (some (mkDate 2024 5 2)) 3 2024]
          ⟨none, some 2024, some 6⟩ ↔
      (sampleStay 7 (some (mkDate 2024 4 30)) (some (mkDate 2024 5 2)) 3 2024 ∈
          [sampleStay 7 (some (mkDate 2024 4 30)) (some (mkDate 2024 5 2)) 3 2024] ∧
        keepStaySpec ⟨none, some 2024, some 6⟩
          (sampleStay 7 (some (mkDate 2024 4 30)) (some (mkDate 2024 5 2)) 3 2024)) :=
  filterStaysByFilters_mem _ _ (by intro m hm; cases hm; omega) _

/-! ## Partition property of the grouping engine -/

/-- All stays of a month map, in stored order. -/
def flatMM (mm : List (Int × List Stay)) : List Stay := mm.flatMap (fun e => e.2)

/-- All stays of a year map. -/
def flatYM (ym : List (Int × List (Int × List Stay))) : List Stay :=
  ym.flatMap (fun e => flatMM e.2)

/-- All stays of the produced export groups. -/
def exportFlatten (groups : List ExportYearGroup) : List Stay :=
  groups.flatMap (fun g => g.months.flatMap (fun m => m.stays))

theorem flatMM_pushMonth (mm : List (Int × List Stay)) (month : Int) (s : Stay) :
    (flatMM (pushMonth mm month s)).Perm (s :: flatMM mm) := by
  induction mm with
  | nil => simp [pushMonth, flatMM]
  | cons e rest ih =>
      obtain ⟨k, ss⟩ := e
      by_cases hk : k = month
      · simp only [pushMonth, if_pos hk, flatMM, List.flatMap_cons]
        have : (ss ++ [s]) ++ rest.flatMap (fun e => e.2) =
            ss ++ (s :: rest.flatMap (fun e => e.2)) := by simp
        rw [this]
        exact List.perm_middle
      · simp only [pushMonth, if_neg hk, flatMM, List.flatMap_cons] at ih ⊢
        refine ((List.Perm.append_left ss ih).trans ?_)
        exact List.perm_middle
  
theorem flatYM_pushYear (ym : List (Int × List (Int × List Stay))) (y m : Int) (s : Stay) :
    (flatYM (pushYear ym y m s)).Perm (s :: flatYM ym) := by
  induction ym with
  | nil => simp [pushYear, flatYM, flatMM, pushMonth]
  | cons e rest ih =>
      obtain ⟨k, mm⟩ := e
      by_cases hk : k = y
      · simp only [pushYear, if_pos hk, flatYM, List.flatMap_cons]
        exact (List.Perm.append (flatMM_pushMonth mm m s) (List.Perm.refl _))
      · simp only [pushYear, if_neg hk, flatYM, List.flatMap_cons] at ih ⊢
        exact ((List.Perm.append_left (flatMM mm) ih).trans List.perm_middle)

theorem flatMap_perm_left {α β : Type} (f : α → List β) {l l' : List α} (p : l.Perm l') :
    (l.flatMap f).Perm (l'.flatMap f) := by
  rw [List.flatMap_def, List.flatMap_def]
  exact (p.map f).flatten

theorem flatMap_perm_right {α β : Type} (f g : α → List β) (l : List α)
    (h : ∀ a ∈ l, (f a).Perm (g a)) : (l.flatMap f).Perm (l.flatMap g) := by
  induction l with
  | nil => simp
  | cons a rest ih =>
      simp only [List.flatMap_cons]
      exact (h a (by simp)).append (ih (fun b hb => h b (by simp [hb])))

theorem flatYM_groupFold (filters : ParsedFilters) : ∀ (stays : List Stay)
    (ym : List (Int × List (Int × List Stay))),
    (flatYM (stays.foldl (fun ym stay =>
      let anchorDate := stayAnchorDate stay
      let year := filters.year.getD (yearOfDay anchorDate)
      let month := filters.month.getD (monthOfDay anchorDate + 1)
      pushYear ym year month stay) ym)).Perm (flatYM ym ++ stays) := by
  intro stays
  induction stays with
  | nil => simp
  | cons s rest ih =>
      intro ym
      simp only [List.foldl_cons]
      refine (ih _).trans ?_
      refine (List.Perm.append (flatYM_pushYear ym _ _ s) (List.Perm.refl rest)).trans ?_
      exact List.perm_middle.symm

/-- C7: `groupStaysForExport` returns `[]` on `[]`, and on any input
the year/month buckets partition the input: their concatenation is a
permutation of the input, so bucket sizes sum to the input length, and
distinct stays (distinct ids) never share or repeat a bucket. -/
theorem groupStaysForExport_partition :
    (∀ f : ParsedFilters, groupStaysForExport [] f = []) ∧
    ∀ (stays : List Stay) (f : ParsedFilters),
      (exportFlatten (groupStaysForExport stays f)).Perm stays ∧
      ((groupStaysForExport stays f).map (fun g =>
        (g.months.map (fun m => m.stays.length)).sum)).sum = stays.length ∧
      ((stays.map Stay.id).Nodup →
        ((exportFlatten (groupStaysForExport stays f)).map Stay.id).Nodup) := by
  have hmain : ∀ (stays : List Stay) (f : ParsedFilters),
      (exportFlatten (groupStaysForExport stays f)).Perm stays := by
    intro stays f
    unfold groupStaysForExport exportFlatten
    simp only [List.flatMap_map]
    have h1 : ∀ e : Int × List (Int × List Stay),
        ((e.2.mergeSort keyDescLE).flatMap (fun me => sortStaysByRecency me.2)).Perm
          (flatMM e.2) := by
      intro e
      refine (flatMap_perm_right _ (fun me => me.2) _ ?_).trans
        (flatMap_perm_left (fun me => me.2) (List.mergeSort_perm e.2 keyDescLE))
      intro me _
      exact List.mergeSort_perm me.2 staysLE
    refine List.Perm.trans (flatMap_perm_right _
      (fun e => flatMM e.2) _ (fun e _ => h1 e)) ?_
    refine List.Perm.trans (flatMap_perm_left (fun e => flatMM e.2)
      (List.mergeSort_perm _ keyDescLE)) ?_
    exact (flatYM_groupFold f stays []).trans (by simp [flatYM])
  refine ⟨?_, fun stays f => ⟨hmain stays f, ?_, ?_⟩⟩
  · intro f
    simp [groupStaysForExport]
  · have hfun : (List.length ∘ fun g : ExportYearGroup => g.months.flatMap fun m => m.stays) =
        fun g => (g.months.map (fun m => m.stays.length)).sum := by
      funext g
      simp [List.length_flatMap, Function.comp_def]
    have hlen := (hmain stays f).length_eq
    simp only [exportFlatten, List.length_flatMap, hfun] at hlen
    exact hlen
  · intro h
    exact ((hmain stays f).map Stay.id).nodup_iff.mpr h

/-- Witness for C7: the no-duplication conclusion at a concrete
two-stay input with distinct ids. -/
theorem groupStaysForExport_partition_witness :
    ((exportFlatten (groupStaysForExport
      [sampleStay 1 (some 739050) none 2 2024, sampleStay 2 none none 1 2023]
      ⟨none, none, none⟩)).map Stay.id).Nodup :=
  (groupStaysForExport_partition.2
    [sampleStay 1 (some 739050) none 2 2024, sampleStay 2 none none 1 2023]
    ⟨none, none, none⟩).2.2 (by simp [sampleStay])

/-! ## Grid shape and totality of the calendar paint -/

theorem find_filterMap_keys_none (f : Int → Option CellPaint) :
    ∀ (keys : List Int) (d : Int), d ∉ keys →
    (keys.filterMap (fun k => (f k).map (fun p => (k, p)))).find?
      (fun e => decide (e.1 = d)) = none := by
  intro keys
  induction keys with
  | nil => intro d _; rfl
  | cons k rest ih =>
      intro d hd
      have hdk : ¬ (k = d) := by intro h; exact hd (by simp [h])
      have hdrest : d ∉ rest := fun h => hd (by simp [h])
      rcases hfk : f k with _ | p <;>
        simp only [List.filterMap_cons, hfk, Option.map_none', Option.map_some']
      · exact ih d hdrest
      · rw [List.find?_cons_of_neg _ (by simp [hdk])]
        exact ih d hdrest

theorem find_filterMap_keys (f : Int → Option CellPaint) :
    ∀ (keys : List Int) (d : Int), keys.Nodup → d ∈ keys →
    (keys.filterMap (fun k => (f k).map (fun p => (k, p)))).find?
      (fun e => decide (e.1 = d)) = (f d).map (fun p => (d, p)) := by
  intro keys
  induction keys with
  | nil => intro d _ h; cases h
  | cons k rest ih =>
      intro d hnd hd
      by_cases hdk : k = d
      · subst hdk
        have hnotin : k ∉ rest := (List.nodup_cons.mp hnd).1
        rcases hfk : f k with _ | p <;>
          simp only [List.filterMap_cons, hfk, Option.map_none', Option.map_some']
        · exact find_filterMap_keys_none f rest k hnotin
        · rw [List.find?_cons_of_pos _ (by simp)]
      · have hdrest : d ∈ rest := by
          rcases List.mem_cons.mp hd with h | h
          · exact absurd h.symm hdk
          · exact h
        rcases hfk : f k with _ | p <;>
          simp only [List.filterMap_cons, hfk, Option.map_none', Option.map_some']
        · exact ih d (List.nodup_cons.mp hnd).2 hdrest
        · rw [List.find?_cons_of_neg _ (by simp [hdk])]
          exact ih d (List.nodup_cons.mp hnd).2 hdrest

theorem buildCalendarDayStyles_as_grid (stays : List Stay) (year month : Int)
    (c : List (Int × StayColor)) :
    buildCalendarDayStyles stays year month c =
      (calendarGridDays year month).filterMap (fun k =>
        (classifyDay (calendarAccOf stays year month) c year month k).map
          (fun p => (k, p))) := by
  simp [buildCalendarDayStyles, calendarGridDays, List.filterMap_map, Function.comp_def]

theorem calendarGridDays_nodup (year month : Int) :
    (calendarGridDays year month).Nodup := by
  unfold calendarGridDays
  exact @List.Nodup.map Nat Int (List.range 42)
    (fun index => addDays (gridStartOf year month) (index : Int))
    (fun a b h => by simp only [addDays] at h; omega) (List.nodup_range 42)

/-- Each grid day's paint entry is exactly the (total) per-day
classifier's output. -/
theorem paintLookup_grid (stays : List Stay) (year month : Int)
    (c : List (Int × StayColor)) (d : Int) (hd : d ∈ calendarGridDays year month) :
    paintLookup (buildCalendarDayStyles stays year month c) d =
      classifyDay (calendarAccOf stays year month) c year month d := by
  rw [buildCalendarDayStyles_as_grid]
  unfold paintLookup
  rw [find_filterMap_keys _ _ _ (calendarGridDays_nodup year month) hd]
  rcases classifyDay (calendarAccOf stays year month) c year month d with _ | p <;> simp

theorem map_fst_filterMap_sublist (f : Int → Option CellPaint) : ∀ keys : List Int,
    ((keys.filterMap (fun k => (f k).map (fun p => (k, p)))).map Prod.fst).Sublist keys := by
  intro keys
  induction keys with
  | nil => simp
  | cons k rest ih =>
      rcases hfk : f k with _ | p <;>
        simp only [List.filterMap_cons, hfk, Option.map_none', Option.map_some', List.map_cons]
      · exact ih.cons k
      · exact ih.cons₂ k

/-- C5: for any month-in-1..12 view the grid is exactly 42 consecutive
days starting at the Monday on or before the first of the month
(`jsGetDay = 1`), the document's 42 cells are exactly those days, the
style map never paints a day twice or a day off the grid, and every
grid day's paint is the value of the total per-day classifier (cells it
leaves `none` are the blank cells). -/
theorem calendarComputation_total (stays : List Stay) (year month : Int)
    (hm1 : 1 ≤ month) (hm2 : month ≤ 12)
    (colorByStayId : List (Int × StayColor)) (apartmentLabel : String)
    (mode : ExportOutputMode) :
    (calendarGridDays year month).length = 42 ∧
    (∀ i : Nat, i < 42 →
      (calendarGridDays year month).getD i 0 = gridStartOf year month + (i : Int)) ∧
    jsGetDay (gridStartOf year month) = 1 ∧
    gridStartOf year month ≤ mkDate year (month - 1) 1 ∧
    mkDate year (month - 1) 1 - gridStartOf year month < 7 ∧
    ((buildExportDocumentHtml stays year month apartmentLabel mode).calendarCells.map
      (fun cell => cell.day)) = calendarGridDays year month ∧
    ((buildCalendarDayStyles stays year month colorByStayId).map Prod.fst).Nodup ∧
    (∀ e ∈ buildCalendarDayStyles stays year month colorByStayId,
      e.1 ∈ calendarGridDays year month) ∧
    (∀ d ∈ calendarGridDays year month,
      paintLookup (buildCalendarDayStyles stays year month colorByStayId) d =
        classifyDay (calendarAccOf stays year month) colorByStayId year month d) := by
  refine ⟨by simp only [calendarGridDays, List.length_map, List.length_range],
    ?_, ?_, ?_, ?_, ?_, ?_, ?_, ?_⟩
  · intro i hi
    simp only [calendarGridDays, addDays]
    rw [List.getD_eq_getElem?_getD, List.getElem?_map, List.getElem?_range hi]
    simp
  · simp only [gridStartOf, mkDate, jsGetDay, addDays]
    omega
  · simp only [gridStartOf, mkDate, jsGetDay, addDays]
    omega
  · simp only [gridStartOf, mkDate, jsGetDay, addDays]
    omega
  · simp [buildExportDocumentHtml, calendarGridDays, List.map_map, Function.comp_def]
  · rw [buildCalendarDayStyles_as_grid]
    exact List.Nodup.sublist (map_fst_filterMap_sublist _ _)
      (calendarGridDays_nodup year month)
  · intro e he
    rw [buildCalendarDayStyles_as_grid] at he
    obtain ⟨k, hk, heq⟩ := List.mem_filterMap.mp he
    rcases hc : classifyDay (calendarAccOf stays year month) colorByStayId year month k
      with _ | p <;> rw [hc] at heq
    · cases heq
    · cases heq
      exact hk
  · intro d hd
    exact paintLookup_grid stays year month colorByStayId d hd

/-- Witness for C5: the June 2024 view with no stays. -/
theorem calendarComputation_total_witness :
    jsGetDay (gridStartOf 2024 6) = 1 ∧
    gridStartOf 2024 6 ≤ mkDate 2024 5 1 :=
  ⟨(calendarComputation_total [] 2024 6 (by omega) (by omega) [] "T1" .pdf).2.2.1,
    (calendarComputation_total [] 2024 6 (by omega) (by omega) [] "T1" .pdf).2.2.2.1⟩

/-! ## Contents of the arrival / departure day maps -/

theorem dayLookup_nil (day : Int) : dayLookup [] day = [] := rfl

theorem dayLookup_cons_same (d : Int) (ids : List Int) (rest : List (Int × List Int)) :
    dayLookup ((d, ids) :: rest) d = ids := by
  simp [dayLookup]

theorem dayLookup_cons_other (d day : Int) (ids : List Int)
    (rest : List (Int × List Int)) (h : d ≠ day) :
    dayLookup ((d, ids) :: rest) day = dayLookup rest day := by
  simp [dayLookup, h]

theorem addUniqueDayStay_cons_same (d id : Int) (ids : List Int)
    (rest : List (Int × List Int)) :
    addUniqueDayStay ((d, ids) :: rest) d id =
      (d, if ids.contains id then ids else ids ++ [id]) :: rest := by
  simp [addUniqueDayStay]

theorem addUniqueDayStay_cons_other (d day id : Int) (ids : List Int)
    (rest : List (Int × List Int)) (h : ¬ d = day) :
    addUniqueDayStay ((d, ids) :: rest) day id = (d, ids) :: addUniqueDayStay rest day id := by
  simp [addUniqueDayStay, h]

theorem dayLookup_addUniqueDayStay_same : ∀ (m : List (Int × List Int)) (day id : Int),
    dayLookup (addUniqueDayStay m day id) day =
      if (dayLookup m day).contains id then dayLookup m day
      else dayLookup m day ++ [id] := by
  intro m
  induction m with
  | nil => intro day id; simp [addUniqueDayStay, dayLookup_cons_same, dayLookup_nil]
  | cons e rest ih =>
      intro day id
      obtain ⟨d, ids⟩ := e
      by_cases hdday : d = day
      · subst hdday
        rw [addUniqueDayStay_cons_same, dayLookup_cons_same, dayLookup_cons_same]
      · rw [addUniqueDayStay_cons_other _ _ _ _ _ hdday,
          dayLookup_cons_other _ _ _ _ hdday, dayLookup_cons_other _ _ _ _ hdday]
        exact ih day id

theorem dayLookup_addUniqueDayStay_other : ∀ (m : List (Int × List Int)) (day day' id : Int),
    day' ≠ day →
    dayLookup (addUniqueDayStay m day id) day' = dayLookup m day' := by
  intro m
  induction m with
  | nil =>
      intro day day' id h
      show dayLookup [(day, [id])] day' = dayLookup [] day'
      rw [dayLookup_nil, dayLookup_cons_other _ _ _ _ (by omega : day ≠ day'), dayLookup_nil]
  | cons e rest ih =>
      intro day day' id h
      obtain ⟨d, ids⟩ := e
      by_cases hdday : d = day
      · subst hdday
        rw [addUniqueDayStay_cons_same,
          dayLookup_cons_other _ _ _ _ (by omega : ¬ d = day'),
          dayLookup_cons_other _ _ _ _ (by omega : ¬ d = day')]
      · rw [addUniqueDayStay_cons_other _ _ _ _ _ hdday]
        by_cases hd' : d = day'
        · subst hd'
          rw [dayLookup_cons_same, dayLookup_cons_same]
        · rw [dayLookup_cons_other _ _ _ _ hd', dayLookup_cons_other _ _ _ _ hd']
          exact ih day day' id h

theorem paintStayAcc_departuresByDay (gridStart gridEnd : Int) (acc : CalendarAcc)
    (stay : Stay) :
    (paintStayAcc gridStart gridEnd acc stay).departuresByDay =
      (match stayDepartureDate stay with
        | some d =>
            if gridStart ≤ d ∧ d < gridEnd then addUniqueDayStay acc.departuresByDay d stay.id
            else acc.departuresByDay
        | none => acc.departuresByDay) := rfl

theorem paintStayAcc_arrivalsByDay (gridStart gridEnd : Int) (acc : CalendarAcc)
    (stay : Stay) :
    (paintStayAcc gridStart gridEnd acc stay).arrivalsByDay =
      (match stay.check_in with
        | some d =>
            if gridStart ≤ d ∧ d < gridEnd then addUniqueDayStay acc.arrivalsByDay d stay.id
            else acc.arrivalsByDay
        | none => acc.arrivalsByDay) := rfl

theorem departures_fold (gridStart gridEnd d : Int) (hd1 : gridStart ≤ d)
    (hd2 : d < gridEnd) :
    ∀ (stays : List Stay) (acc : CalendarAcc),
    (∀ s ∈ stays, s.id ∉ dayLookup acc.departuresByDay d) →
    (stays.map Stay.id).Nodup →
    dayLookup (stays.foldl (paintStayAcc gridStart gridEnd) acc).departuresByDay d =
      dayLookup acc.departuresByDay d ++
        (stays.filter (fun s => decide (stayDepartureDate s = some d))).map Stay.id := by
  intro stays
  induction stays with
  | nil => intro acc _ _; simp
  | cons s rest ih =>
      intro acc hnotin hnodup
      have hnodup2 : (∀ x ∈ rest, ¬ x.id = s.id) ∧ (rest.map Stay.id).Nodup := by
        simp only [List.map_cons, List.nodup_cons] at hnodup
        constructor
        · intro x hx he
          exact hnodup.1 (he ▸ List.mem_map_of_mem Stay.id hx)
        · exact hnodup.2
      simp only [List.foldl_cons]
      rcases hdd : stayDepartureDate s with _ | dy
      · have hunch : (paintStayAcc gridStart gridEnd acc s).departuresByDay =
            acc.departuresByDay := by
          simp only [paintStayAcc_departuresByDay, hdd]
        rw [ih _ (fun t ht => by rw [hunch]; exact hnotin t (by simp [ht])) hnodup2.2, hunch]
        simp [List.filter_cons, hdd]
      · by_cases hdyd : dy = d
        · subst hdyd
          have hupd : (paintStayAcc gridStart gridEnd acc s).departuresByDay =
              addUniqueDayStay acc.departuresByDay dy s.id := by
            simp only [paintStayAcc_departuresByDay, hdd]
            rw [if_pos (⟨hd1, hd2⟩ : gridStart ≤ dy ∧ dy < gridEnd)]
          have hlook : dayLookup (paintStayAcc gridStart gridEnd acc s).departuresByDay dy =
              dayLookup acc.departuresByDay dy ++ [s.id] := by
            rw [hupd, dayLookup_addUniqueDayStay_same, if_neg]
            intro hc
            exact hnotin s (by simp) (by simpa using hc)
          rw [ih _ ?_ hnodup2.2]
          · rw [hlook]
            simp [List.filter_cons, hdd, List.append_assoc]
          · intro t ht
            rw [hlook]
            simp only [List.mem_append, List.mem_singleton]
            rintro (hin | hts)
            · exact hnotin t (by simp [ht]) hin
            · exact hnodup2.1 t ht hts
        · have hunch : dayLookup (paintStayAcc gridStart gridEnd acc s).departuresByDay d =
              dayLookup acc.departuresByDay d := by
            simp only [paintStayAcc_departuresByDay, hdd]
            split
            · exact dayLookup_addUniqueDayStay_other acc.departuresByDay dy d s.id
                (fun he => hdyd he.symm)
            · rfl
          rw [ih _ (fun t ht => by rw [hunch]; exact hnotin t (by simp [ht])) hnodup2.2, hunch]
          have hne : ¬ (stayDepartureDate s = some d) := by simp [hdd, hdyd]
          simp [List.filter_cons, hne]

theorem arrivals_fold (gridStart gridEnd d : Int) (hd1 : gridStart ≤ d)
    (hd2 : d < gridEnd) :
    ∀ (stays : List Stay) (acc : CalendarAcc),
    (∀ s ∈ stays, s.id ∉ dayLookup acc.arrivalsByDay d) →
    (stays.map Stay.id).Nodup →
    dayLookup (stays.foldl (paintStayAcc gridStart gridEnd) acc).arrivalsByDay d =
      dayLookup acc.arrivalsByDay d ++
        (stays.filter (fun s => decide (s.check_in = some d))).map Stay.id := by
  intro stays
  induction stays with
  | nil => intro acc _ _; simp
  | cons s rest ih =>
      intro acc hnotin hnodup
      have hnodup2 : (∀ x ∈ rest, ¬ x.id = s.id) ∧ (rest.map Stay.id).Nodup := by
        simp only [List.map_cons, List.nodup_cons] at hnodup
        constructor
        · intro x hx he
          exact hnodup.1 (he ▸ List.mem_map_of_mem Stay.id hx)
        · exact hnodup.2
      simp only [List.foldl_cons]
      rcases hdd : s.check_in with _ | dy
      · have hunch : (paintStayAcc gridStart gridEnd acc s).arrivalsByDay =
            acc.arrivalsByDay := by
          simp only [paintStayAcc_arrivalsByDay, hdd]
        rw [ih _ (fun t ht => by rw [hunch]; exact hnotin t (by simp [ht])) hnodup2.2, hunch]
        simp [List.filter_cons, hdd]
      · by_cases hdyd : dy = d
        · subst hdyd
          have hupd : (paintStayAcc gridStart gridEnd acc s).arrivalsByDay =
              addUniqueDayStay acc.arrivalsByDay dy s.id := by
            simp only [paintStayAcc_arrivalsByDay, hdd]
            rw [if_pos (⟨hd1, hd2⟩ : gridStart ≤ dy ∧ dy < gridEnd)]
          have hlook : dayLookup (paintStayAcc gridStart gridEnd acc s).arrivalsByDay dy =
              dayLookup acc.arrivalsByDay dy ++ [s.id] := by
            rw [hupd, dayLookup_addUniqueDayStay_same, if_neg]
            intro hc
            exact hnotin s (by simp) (by simpa using hc)
          rw [ih _ ?_ hnodup2.2]
          · rw [hlook]
            simp [List.filter_cons, hdd, List.append_assoc]
          · intro t ht
            rw [hlook]
            simp only [List.mem_append, List.mem_singleton]
            rintro (hin | hts)
            · exact hnotin t (by simp [ht]) hin
            · exact hnodup2.1 t ht hts
        · have hunch : dayLookup (paintStayAcc gridStart gridEnd acc s).arrivalsByDay d =
              dayLookup acc.arrivalsByDay d := by
            simp only [paintStayAcc_arrivalsByDay, hdd]
            split
            · exact dayLookup_addUniqueDayStay_other acc.arrivalsByDay dy d s.id
                (fun he => hdyd he.symm)
            · rfl
          rw [ih _ (fun t ht => by rw [hunch]; exact hnotin t (by simp [ht])) hnodup2.2, hunch]
          have hne : ¬ (s.check_in = some d) := by simp [hdd, hdyd]
          simp [List.filter_cons, hne]

theorem mem_calendarGridDays_bounds {year month d : Int}
    (hd : d ∈ calendarGridDays year month) :
    gridStartOf year month ≤ d ∧ d < addDays (gridStartOf year month) 42 := by
  simp only [calendarGridDays, List.mem_map, List.mem_range] at hd
  obtain ⟨i, hi, rfl⟩ := hd
  simp only [addDays]
  omega

theorem departures_calendarAccOf (stays : List Stay) (year month d : Int)
    (hid : (stays.map Stay.id).Nodup) (hd : d ∈ calendarGridDays year month) :
    dayLookup (calendarAccOf stays year month).departuresByDay d =
      (stays.filter (fun s => decide (stayDepartureDate s = some d))).map Stay.id := by
  obtain ⟨h1, h2⟩ := mem_calendarGridDays_bounds hd
  unfold calendarAccOf
  rw [departures_fold _ _ d h1 h2 stays ⟨[], [], []⟩
    (by intro s _ hmem; rw [dayLookup_nil] at hmem; cases hmem) hid]
  rw [dayLookup_nil, List.nil_append]

theorem arrivals_calendarAccOf (stays : List Stay) (year month d : Int)
    (hid : (stays.map Stay.id).Nodup) (hd : d ∈ calendarGridDays year month) :
    dayLookup (calendarAccOf stays year month).arrivalsByDay d =
      (stays.filter (fun s => decide (s.check_in = some d))).map Stay.id := by
  obtain ⟨h1, h2⟩ := mem_calendarGridDays_bounds hd
  unfold calendarAccOf
  rw [arrivals_fold _ _ d h1 h2 stays ⟨[], [], []⟩
    (by intro s _ hmem; rw [dayLookup_nil] at hmem; cases hmem) hid]
  rw [dayLookup_nil, List.nil_append]

/-- C4 (amended): when stay `A` is the only departure recorded on a
grid day and stay `B` the only arrival, `A ≠ B`, and both have assigned
colors, the day is painted `turnover` with both stays' colors in the
split fill — in particular it is neither plain `occupied` nor
`departure`. -/
theorem buildCalendarDayStyles_turnover (stays : List Stay) (year month : Int)
    (c : List (Int × StayColor)) (A B : Stay) (d : Int) (colA colB : StayColor)
    (hid : (stays.map Stay.id).Nodup)
    (hAB : A.id ≠ B.id)
    (hd : d ∈ calendarGridDays year month)
    (hdep : stays.filter (fun s => decide (stayDepartureDate s = some d)) = [A])
    (harr : stays.filter (fun s => decide (s.check_in = some d)) = [B])
    (hcA : colorLookup c A.id = some colA) (hcB : colorLookup c B.id = some colB) :
    paintLookup (buildCalendarDayStyles stays year month c) d =
      some ⟨.turnover, decide (monthOfDay d + 1 ≠ month ∨ yearOfDay d ≠ year),
        .turnoverSplit colA.border colB.border "#ffffff"⟩ := by
  rw [paintLookup_grid stays year month c d hd]
  have hdepL := departures_calendarAccOf stays year month d hid hd
  have harrL := arrivals_calendarAccOf stays year month d hid hd
  rw [hdep] at hdepL
  rw [harr] at harrL
  simp only [List.map_cons, List.map_nil] at hdepL harrL
  have hBA : ¬ (B.id = A.id) := fun h => hAB h.symm
  simp only [classifyDay, hdepL, harrL, List.head?_cons, List.find?_cons,
    decide_eq_true_eq, hcA, hcB]
  simp [hAB, hBA, hcA, hcB]

/-- Three stays of the June 2024 view: ids 1 and 2 both depart on June
15 while id 3 arrives that day.  Palette positions 0, 1, 2. -/
def turnoverStayA : Stay := sampleStay 1 (some (mkDate 2024 5 13)) (some (mkDate 2024 5 15)) 2 2024

def turnoverStayC : Stay := sampleStay 2 (some (mkDate 2024 5 14)) (some (mkDate 2024 5 15)) 1 2024

def turnoverStayB : Stay := sampleStay 3 (some (mkDate 2024 5 15)) (some (mkDate 2024 5 17)) 2 2024

def turnoverColors : List (Int × StayColor) :=
  [(1, getColorForStay 0), (2, getColorForStay 1), (3, getColorForStay 2)]

set_option maxRecDepth 10000

/-- Counterexample to C4 as stated: the pair (`turnoverStayC`,
`turnoverStayB`) shares a same-day turnover on June 15 2024 — C checks
out, B checks in — yet the cell's split fill carries the colors of
stay 1 (the *first* recorded departure) and of B: C's color `#ff8786`
is not in the fill. -/
theorem buildCalendarDayStyles_turnover_counterexample :
    turnoverStayC.check_out = some (mkDate 2024 5 15) ∧
    turnoverStayB.check_in = some (mkDate 2024 5 15) ∧
    turnoverStayC.id ≠ turnoverStayB.id ∧
    mkDate 2024 5 15 ∈ calendarGridDays 2024 6 ∧
    colorLookup turnoverColors turnoverStayC.id = some ⟨"#ff8786", "#ff8786", "#ffffff"⟩ ∧
    paintLookup (buildCalendarDayStyles [turnoverStayA, turnoverStayC, turnoverStayB]
        2024 6 turnoverColors) (mkDate 2024 5 15) =
      some ⟨.turnover, false, .turnoverSplit "#5e837c" "#1872cf" "#ffffff"⟩ ∧
    "#ff8786" ≠ "#5e837c" ∧ "#ff8786" ≠ "#1872cf" := by
  refine ⟨rfl, rfl, by decide, by decide, rfl, by decide, by decide, by decide⟩

/-- The two-stay turnover scenario for the amended claim's witness. -/
def pairStayA : Stay := sampleStay 1 (some (mkDate 2024 5 10)) (some (mkDate 2024 5 15)) 5 2024

def pairStayB : Stay := sampleStay 2 (some (mkDate 2024 5 15)) (some (mkDate 2024 5 18)) 3 2024

def pairColors : List (Int × StayColor) := [(1, getColorForStay 0), (2, getColorForStay 1)]

/-- Witness for the amended C4: June 15 2024, stay 1 departs and stay 2
arrives, no other departure/arrival that day — the cell is a turnover
split with both colors. -/
theorem buildCalendarDayStyles_turnover_witness :
    paintLookup (buildCalendarDayStyles [pairStayA, pairStayB] 2024 6 pairColors)
        (mkDate 2024 5 15) =
      some ⟨.turnover,
        decide (monthOfDay (mkDate 2024 5 15) + 1 ≠ 6 ∨ yearOfDay (mkDate 2024 5 15) ≠ 2024),
        .turnoverSplit (getColorForStay 0).border (getColorForStay 1).border "#ffffff"⟩ :=
  buildCalendarDayStyles_turnover [pairStayA, pairStayB] 2024 6 pairColors pairStayA pairStayB
    (mkDate 2024 5 15) (getColorForStay 0) (getColorForStay 1)
    (by decide) (by decide) (by decide) (by decide) (by decide) (by decide) (by decide)
